import Mathlib

/-!
# Verification of the hound-todo command pipeline

Shallow embedding of the Go sources of `hound-todo`:

* `shared/idempotency/key.go` — `GenerateKey` (SHA-256 based key derivation);
* `services/todo-domain/internal/store/store.go` — the todo store and
  idempotency-record table, modelled as a pure state machine over `DB`;
* `services/todo-domain/internal/server/server.go` — the gRPC handlers;
* `services/ingress/internal/handler/webhook.go` — the webhook classifier;
* `services/command/internal/consumer/consumer.go` — the ack discipline;
* the command-service domain client — `FindTodoByTitle` and its helpers.

Machine integers are modelled as `Nat` with explicit reduction modulo `2^32`
where the algorithm depends on 32-bit wrap-around (SHA-256); Go byte strings
are modelled as `List Nat` of byte values obtained by UTF-8 encoding.
-/

namespace HoundTodo

/-! ## UTF-8 bytes of a Go string

Go's `[]byte(s)` yields the UTF-8 encoding of `s`. -/

/-- UTF-8 encoding of one code point, as byte values. -/
def utf8Char (c : Char) : List Nat :=
  let n := c.toNat
  if n < 128 then [n]
  else if n < 2048 then [192 ||| (n >>> 6), 128 ||| (n &&& 63)]
  else if n < 65536 then
    [224 ||| (n >>> 12), 128 ||| ((n >>> 6) &&& 63), 128 ||| (n &&& 63)]
  else
    [240 ||| (n >>> 18), 128 ||| ((n >>> 12) &&& 63),
     128 ||| ((n >>> 6) &&& 63), 128 ||| (n &&& 63)]

/-- The bytes of a Go string (UTF-8). -/
def strBytes (s : String) : List Nat :=
  s.data.flatMap utf8Char

/-! ## SHA-256 (`crypto/sha256`, FIPS 180-4)

`GenerateKey` calls `sha256.Sum256`; we embed the full algorithm over
byte lists, with 32-bit words as `Nat` reduced mod `2^32`. -/

/-- Truncate to a 32-bit word. -/
def w32 (n : Nat) : Nat := n % 4294967296

/-- Right rotation of a 32-bit word. -/
def rotr32 (n x : Nat) : Nat := (x >>> n) ||| w32 (x <<< (32 - n))

/-- SHA-256 round constants (FIPS 180-4 §4.2.2, written in decimal). -/
def k256 : List Nat :=
  [1116352408, 1899447441, 3049323471, 3921009573, 961987163,
   1508970993, 2453635748, 2870763221, 3624381080, 310598401,
   607225278, 1426881987, 1925078388, 2162078206, 2614888103,
   3248222580, 3835390401, 4022224774, 264347078, 604807628,
   770255983, 1249150122, 1555081692, 1996064986, 2554220882,
   2821834349, 2952996808, 3210313671, 3336571891, 3584528711,
   113926993, 338241895, 666307205, 773529912, 1294757372,
   1396182291, 1695183700, 1986661051, 2177026350, 2456956037,
   2730485921, 2820302411, 3259730800, 3345764771, 3516065817,
   3600352804, 4094571909, 275423344, 430227734, 506948616,
   659060556, 883997877, 958139571, 1322822218, 1537002063,
   1747873779, 1955562222, 2024104815, 2227730452, 2361852424,
   2428436474, 2756734187, 3204031479, 3329325298]

/-- SHA-256 padding: append `0x80`, zeros to 56 mod 64, then the 64-bit
big-endian bit length. -/
def padMessage (msg : List Nat) : List Nat :=
  let L := msg.length
  let z := (119 - L % 64) % 64
  let lenBytes := (List.range 8).map (fun i => ((L * 8) >>> (8 * (7 - i))) % 256)
  msg ++ [128] ++ List.replicate z 0 ++ lenBytes

/-- Split a byte list into chunks of `n` bytes, structurally recursive on a
fuel argument so that it reduces definitionally; for `0 < n` a fuel of
`l.length` always suffices since each step drops `n` elements. -/
def chunksFuel (n : Nat) : Nat → List Nat → List (List Nat)
  | _, [] => []
  | 0, _ => []
  | fuel + 1, l => l.take n :: chunksFuel n fuel (l.drop n)

/-- Split a byte list into chunks of `n` bytes (`0 < n` in every use). -/
def chunks (n : Nat) (l : List Nat) : List (List Nat) :=
  chunksFuel n l.length l

/-- Big-endian 32-bit word from (up to) 4 bytes. -/
def bytesToWord (l : List Nat) : Nat := l.foldl (fun acc b => acc * 256 + b) 0

/-- Big-endian bytes of a 32-bit word. -/
def wordToBytes (x : Nat) : List Nat :=
  [(x >>> 24) % 256, (x >>> 16) % 256, (x >>> 8) % 256, x % 256]

def smallSigma0 (x : Nat) : Nat := rotr32 7 x ^^^ rotr32 18 x ^^^ (x >>> 3)

def smallSigma1 (x : Nat) : Nat := rotr32 17 x ^^^ rotr32 19 x ^^^ (x >>> 10)

def bigSigma0 (x : Nat) : Nat := rotr32 2 x ^^^ rotr32 13 x ^^^ rotr32 22 x

def bigSigma1 (x : Nat) : Nat := rotr32 6 x ^^^ rotr32 11 x ^^^ rotr32 25 x

/-- Extend a 16-word block to the 64-word message schedule (one step). -/
def scheduleStep (w : List Nat) : List Nat :=
  let i := w.length
  w ++ [w32 (w.getD (i - 16) 0 + smallSigma0 (w.getD (i - 15) 0) +
             w.getD (i - 7) 0 + smallSigma1 (w.getD (i - 2) 0))]

/-- The 64-word message schedule of one block. -/
def schedule (w0 : List Nat) : List Nat :=
  (List.range 48).foldl (fun w _ => scheduleStep w) w0

/-- The eight 32-bit working registers. -/
structure Hash8 where
  a : Nat
  b : Nat
  c : Nat
  d : Nat
  e : Nat
  f : Nat
  g : Nat
  h : Nat
deriving DecidableEq, Repr

/-- SHA-256 initial hash value (FIPS 180-4 §5.3.3, written in decimal). -/
def h256init : Hash8 :=
  ⟨1779033703, 3144134277, 1013904242, 2773480762,
   1359893119, 2600822924, 528734635, 1541459225⟩

/-- One SHA-256 compression round. -/
def sha256round (st : Hash8) (ki wi : Nat) : Hash8 :=
  let ch := (st.e &&& st.f) ^^^ ((st.e ^^^ 4294967295) &&& st.g)
  let t1 := w32 (st.h + bigSigma1 st.e + ch + ki + wi)
  let maj := (st.a &&& st.b) ^^^ (st.a &&& st.c) ^^^ (st.b &&& st.c)
  let t2 := w32 (bigSigma0 st.a + maj)
  ⟨w32 (t1 + t2), st.a, st.b, st.c, w32 (st.d + t1), st.e, st.f, st.g⟩

/-- Compress one 64-byte block into the running hash state. -/
def compressBlock (st : Hash8) (block : List Nat) : Hash8 :=
  let ws := schedule ((chunks 4 block).map bytesToWord)
  let fin := (k256.zip ws).foldl (fun s kw => sha256round s kw.1 kw.2) st
  ⟨w32 (st.a + fin.a), w32 (st.b + fin.b), w32 (st.c + fin.c), w32 (st.d + fin.d),
   w32 (st.e + fin.e), w32 (st.f + fin.f), w32 (st.g + fin.g), w32 (st.h + fin.h)⟩

/-- Serialize the final state, big-endian. -/
def hashBytes (st : Hash8) : List Nat :=
  ([st.a, st.b, st.c, st.d, st.e, st.f, st.g, st.h].map wordToBytes).flatten

/-- SHA-256 digest (32 bytes) of a byte message. -/
def sha256 (msg : List Nat) : List Nat :=
  hashBytes ((chunks 64 (padMessage msg)).foldl compressBlock h256init)

/-! ## `shared/idempotency/key.go` -/

/-- Lowercase hex digit, as `encoding/hex` uses. -/
def hexDigit (n : Nat) : Char :=
  if n < 10 then Char.ofNat (48 + n) else Char.ofNat (87 + n)

/-- `hex.EncodeToString` over byte values. -/
def hexEncodeToString (l : List Nat) : String :=
  String.mk ((l.map (fun b => [hexDigit (b / 16), hexDigit (b % 16)])).flatten)

/-- `GenerateKey` from `shared/idempotency/key.go`:
`fmt.Sprintf("idem_%s", hex.EncodeToString(hash[:16]))` where
`hash = sha256.Sum256([]byte(source))`. -/
def GenerateKey (source : String) : String :=
  let hash := sha256 (strBytes source)
  "idem_" ++ hexEncodeToString (hash.take 16)

/-! ## `services/todo-domain/internal/store/store.go` — data model

The `todos` table keyed by `id` and the `idempotency_keys` table keyed by
`key`, with SQL statements modelled row by row; times are abstract `Nat`
ticks standing for `time.Time` values. -/

/-- The `status` column: `'active' | 'completed' | 'deleted'`. -/
inductive Status where
  | active
  | completed
  | deleted
deriving DecidableEq, Repr

/-- The string form used in SQL literals and `ListTodos` filters. -/
def Status.toStr : Status → String
  | .active => "active"
  | .completed => "completed"
  | .deleted => "deleted"

/-- A row of the `todos` table (`store.Todo`). -/
structure Todo where
  id : Nat
  userID : String
  title : String
  description : String
  status : Status
  createdAt : Nat
  updatedAt : Nat
  completedAt : Option Nat
  deletedAt : Option Nat
deriving DecidableEq, Repr

/-- `todov1.TodoStatus`. -/
inductive ProtoStatus where
  | unspecified
  | active
  | completed
  | deleted
deriving DecidableEq, Repr

/-- The wire-level `todov1.Todo` produced by `storeToProto`: it carries
`id, user_id, title, description, created_at, status, completed_at`
(and neither `updated_at` nor `deleted_at`). -/
structure ProtoTodo where
  id : Nat
  userId : String
  title : String
  description : String
  createdAt : Nat
  status : ProtoStatus
  completedAt : Option Nat
deriving DecidableEq, Repr

/-- `storeToProto` from `server.go`. -/
def storeToProto (t : Todo) : ProtoTodo :=
  { id := t.id
    userId := t.userID
    title := t.title
    description := t.description
    createdAt := t.createdAt
    status :=
      match t.status with
      | .active => .active
      | .completed => .completed
      | .deleted => .deleted
    completedAt := t.completedAt }

/-- A row of the `idempotency_keys` table. Every cached response is
`json.Marshal` of a `XxxTodoResponse`, each of which wraps exactly one
`todov1.Todo`; since that serialization is injective we store the
`ProtoTodo` itself as the cached bytes. -/
structure IdemRecord where
  key : String
  response : ProtoTodo
  createdAt : Nat
deriving DecidableEq, Repr

/-- The database state: both tables plus the id sequence. -/
structure DB where
  todos : List Todo
  nextID : Nat
  idem : List IdemRecord
deriving DecidableEq, Repr

namespace Store

/-- `store.ErrNotFound` / `store.ErrNotOwner` (`ErrAlreadyExists` is declared
but never produced by the modelled operations). -/
inductive Err where
  | notFound
  | notOwner
deriving DecidableEq, Repr

/-- `GetTodo`: `SELECT ... WHERE id = $1`, `sql.ErrNoRows ↦ ErrNotFound`. -/
def GetTodo (db : DB) (id : Nat) : Except Err Todo :=
  match db.todos.find? (fun t => t.id == id) with
  | some t => .ok t
  | none => .error .notFound

/-- `CreateTodo`: INSERT of a fresh active row, returning the generated id. -/
def CreateTodo (db : DB) (userID title description : String) (now : Nat) :
    Todo × DB :=
  let t : Todo :=
    { id := db.nextID, userID := userID, title := title,
      description := description, status := .active,
      createdAt := now, updatedAt := now,
      completedAt := none, deletedAt := none }
  (t, { db with todos := db.todos ++ [t], nextID := db.nextID + 1 })

/-- Rows matched by
`UPDATE ... WHERE id = $3 AND user_id = $4 AND status = 'active'`. -/
def completeHit (id : Nat) (userID : String) (t : Todo) : Bool :=
  t.id == id && t.userID == userID && t.status == .active

/-- `CompleteTodo`: conditional update, then the zero-rows read-back path. -/
def CompleteTodo (db : DB) (id : Nat) (userID : String) (completedAt now : Nat) :
    Except Err Todo × DB :=
  let rowsAffected := (db.todos.filter (completeHit id userID)).length
  if rowsAffected == 0 then
    match GetTodo db id with
    | .error e => (.error e, db)
    | .ok existing =>
      if existing.userID != userID then (.error .notOwner, db)
      else (.ok existing, db)
  else
    let db' : DB :=
      { db with
        todos := db.todos.map fun t =>
          if completeHit id userID t then
            { t with status := .completed, completedAt := some completedAt,
                     updatedAt := now }
          else t }
    (GetTodo db' id, db')

/-- Rows matched by
`UPDATE ... WHERE id = $3 AND user_id = $4 AND status != 'deleted'` in
`DeleteTodo`. -/
def deleteHit (id : Nat) (userID : String) (t : Todo) : Bool :=
  t.id == id && t.userID == userID && t.status != .deleted

/-- `DeleteTodo`: soft delete, same zero-rows read-back pattern. -/
def DeleteTodo (db : DB) (id : Nat) (userID : String) (now : Nat) :
    Except Err Todo × DB :=
  let rowsAffected := (db.todos.filter (deleteHit id userID)).length
  if rowsAffected == 0 then
    match GetTodo db id with
    | .error e => (.error e, db)
    | .ok existing =>
      if existing.userID != userID then (.error .notOwner, db)
      else (.ok existing, db)
  else
    let db' : DB :=
      { db with
        todos := db.todos.map fun t =>
          if deleteHit id userID t then
            { t with status := .deleted, deletedAt := some now, updatedAt := now }
          else t }
    (GetTodo db' id, db')

/-- `EditTodo`: update title/description while `status != 'deleted'`; on zero
rows an owned-but-deleted row surfaces `ErrNotFound`. -/
def EditTodo (db : DB) (id : Nat) (userID title description : String)
    (now : Nat) : Except Err Todo × DB :=
  let rowsAffected := (db.todos.filter (deleteHit id userID)).length
  if rowsAffected == 0 then
    match GetTodo db id with
    | .error e => (.error e, db)
    | .ok existing =>
      if existing.userID != userID then (.error .notOwner, db)
      else (.error .notFound, db)
  else
    let db' : DB :=
      { db with
        todos := db.todos.map fun t =>
          if deleteHit id userID t then
            { t with title := title, description := description, updatedAt := now }
          else t }
    (GetTodo db' id, db')

/-- `CheckIdempotencyKey`: point lookup, `sql.ErrNoRows ↦ (nil, nil)`. -/
def CheckIdempotencyKey (db : DB) (key : String) : Option ProtoTodo :=
  (db.idem.find? (fun r => r.key == key)).map (·.response)

/-- `StoreIdempotencyKey`: `INSERT ... ON CONFLICT (key) DO NOTHING`. -/
def StoreIdempotencyKey (db : DB) (key : String) (resp : ProtoTodo) (now : Nat) :
    DB :=
  if db.idem.any (fun r => r.key == key) then db
  else { db with idem := db.idem ++ [⟨key, resp, now⟩] }

/-- Stable insertion into a list sorted by `created_at` descending. -/
def insertByCreatedDesc (t : Todo) : List Todo → List Todo
  | [] => [t]
  | x :: xs =>
    if t.createdAt ≤ x.createdAt then x :: insertByCreatedDesc t xs
    else t :: x :: xs

/-- Sort by `created_at` descending (`ORDER BY created_at DESC`). -/
def sortByCreatedDesc : List Todo → List Todo
  | [] => []
  | x :: xs => insertByCreatedDesc x (sortByCreatedDesc xs)

/-- `ListTodos`: a non-empty `status` filters on it; otherwise all
non-deleted rows of the user are returned. -/
def ListTodos (db : DB) (userID : String) (status : String) : List Todo :=
  if status != "" then
    sortByCreatedDesc
      (db.todos.filter (fun t => t.userID == userID && t.status.toStr == status))
  else
    sortByCreatedDesc
      (db.todos.filter (fun t => t.userID == userID && t.status != .deleted))

end Store

/-! ## `services/todo-domain/internal/server/server.go`

Each handler is a function of the database state. `keyWriteOk` injects the
outcome of the `StoreIdempotencyKey` insert (`false` = the write returns an
error, which every handler swallows). `mutations` counts invocations of the
underlying store mutation. -/

namespace Server

instance {ε α : Type} [DecidableEq ε] [DecidableEq α] :
    DecidableEq (Except ε α) := fun x y =>
  match x, y with
  | .ok a, .ok b =>
    if h : a = b then .isTrue (by rw [h]) else .isFalse (by simp [h])
  | .error a, .error b =>
    if h : a = b then .isTrue (by rw [h]) else .isFalse (by simp [h])
  | .ok _, .error _ => .isFalse (by simp)
  | .error _, .ok _ => .isFalse (by simp)

/-- The gRPC status codes the handlers produce. -/
inductive Code where
  | invalidArgument
  | notFound
  | permissionDenied
  | internal
deriving DecidableEq, Repr

/-- Outcome of one handler call: the response (all four response messages
wrap exactly one `todov1.Todo`), the resulting database state, and the
number of store-level mutation invocations made. -/
structure RunResult where
  resp : Except Code ProtoTodo
  db : DB
  mutations : Nat
deriving DecidableEq, Repr

/-- `todov1.CreateTodoRequest`. -/
structure CreateReq where
  userId : String
  title : String
  description : String
  idempotencyKey : String
deriving DecidableEq, Repr

/-- `todov1.CompleteTodoRequest` (`completedAt = none` models a nil
timestamp, replaced by the server's current time). -/
structure CompleteReq where
  todoId : Nat
  userId : String
  completedAt : Option Nat
  idempotencyKey : String
deriving DecidableEq, Repr

/-- `todov1.DeleteTodoRequest`. -/
structure DeleteReq where
  todoId : Nat
  userId : String
  idempotencyKey : String
deriving DecidableEq, Repr

/-- `todov1.EditTodoRequest`. -/
structure EditReq where
  todoId : Nat
  userId : String
  title : String
  description : String
  idempotencyKey : String
deriving DecidableEq, Repr

/-- The idempotency-cache lookup every handler performs when the request
carries a non-empty key. -/
def cachedResp (db : DB) (key : String) : Option ProtoTodo :=
  if key == "" then none else Store.CheckIdempotencyKey db key

/-- The key-record write every handler performs on success when the request
carries a non-empty key; a failed write (`keyWriteOk = false`) is logged and
swallowed, leaving the table unchanged. -/
def recordKey (keyWriteOk : Bool) (db : DB) (key : String) (resp : ProtoTodo)
    (now : Nat) : DB :=
  if key == "" then db
  else if keyWriteOk then Store.StoreIdempotencyKey db key resp now
  else db

/-- `Server.CreateTodo`. -/
def CreateTodo (keyWriteOk : Bool) (db : DB) (req : CreateReq) (now : Nat) :
    RunResult :=
  if req.userId == "" then ⟨.error .invalidArgument, db, 0⟩
  else if req.title == "" then ⟨.error .invalidArgument, db, 0⟩
  else
    match cachedResp db req.idempotencyKey with
    | some c => ⟨.ok c, db, 0⟩
    | none =>
      let (todo, db1) := Store.CreateTodo db req.userId req.title req.description now
      let resp := storeToProto todo
      ⟨.ok resp, recordKey keyWriteOk db1 req.idempotencyKey resp now, 1⟩

/-- `Server.CompleteTodo`. -/
def CompleteTodo (keyWriteOk : Bool) (db : DB) (req : CompleteReq) (now : Nat) :
    RunResult :=
  if req.todoId == 0 then ⟨.error .invalidArgument, db, 0⟩
  else if req.userId == "" then ⟨.error .invalidArgument, db, 0⟩
  else
    match cachedResp db req.idempotencyKey with
    | some c => ⟨.ok c, db, 0⟩
    | none =>
      let completedAt := req.completedAt.getD now
      match Store.CompleteTodo db req.todoId req.userId completedAt now with
      | (.error .notFound, db1) => ⟨.error .notFound, db1, 1⟩
      | (.error .notOwner, db1) => ⟨.error .permissionDenied, db1, 1⟩
      | (.ok todo, db1) =>
        let resp := storeToProto todo
        ⟨.ok resp, recordKey keyWriteOk db1 req.idempotencyKey resp now, 1⟩

/-- `Server.DeleteTodo`. -/
def DeleteTodo (keyWriteOk : Bool) (db : DB) (req : DeleteReq) (now : Nat) :
    RunResult :=
  if req.todoId == 0 then ⟨.error .invalidArgument, db, 0⟩
  else if req.userId == "" then ⟨.error .invalidArgument, db, 0⟩
  else
    match cachedResp db req.idempotencyKey with
    | some c => ⟨.ok c, db, 0⟩
    | none =>
      match Store.DeleteTodo db req.todoId req.userId now with
      | (.error .notFound, db1) => ⟨.error .notFound, db1, 1⟩
      | (.error .notOwner, db1) => ⟨.error .permissionDenied, db1, 1⟩
      | (.ok todo, db1) =>
        let resp := storeToProto todo
        ⟨.ok resp, recordKey keyWriteOk db1 req.idempotencyKey resp now, 1⟩

/-- `Server.EditTodo`. -/
def EditTodo (keyWriteOk : Bool) (db : DB) (req : EditReq) (now : Nat) :
    RunResult :=
  if req.todoId == 0 then ⟨.error .invalidArgument, db, 0⟩
  else if req.userId == "" then ⟨.error .invalidArgument, db, 0⟩
  else
    match cachedResp db req.idempotencyKey with
    | some c => ⟨.ok c, db, 0⟩
    | none =>
      match Store.EditTodo db req.todoId req.userId req.title req.description now with
      | (.error .notFound, db1) => ⟨.error .notFound, db1, 1⟩
      | (.error .notOwner, db1) => ⟨.error .permissionDenied, db1, 1⟩
      | (.ok todo, db1) =>
        let resp := storeToProto todo
        ⟨.ok resp, recordKey keyWriteOk db1 req.idempotencyKey resp now, 1⟩

/-- `Server.ListTodos`: maps the proto status filter to the store's string
filter and converts rows to wire form. -/
def statusFilter : ProtoStatus → String
  | .active => "active"
  | .completed => "completed"
  | .deleted => "deleted"
  | .unspecified => ""

/-- `Server.ListTodos` (requires a non-empty `user_id`; we model the valid
path, the guard returning `InvalidArgument` otherwise). -/
def ListTodos (db : DB) (userId : String) (status : ProtoStatus) :
    Except Code (List ProtoTodo) :=
  if userId == "" then .error .invalidArgument
  else .ok ((Store.ListTodos db userId (statusFilter status)).map storeToProto)

end Server

/-! ## `services/ingress/internal/handler/webhook.go`

`HandleSMS` on a parsed POST form. External outcomes are injected:
`authTokenSet` (a non-empty `twilioAuthToken`), `sigValid` (the Twilio
signature validator's verdict) and `publishOk` (the broker publish). The
result is the HTTP status code together with the envelopes published. -/

namespace Ingress

/-- `publisher.AudioMessage`. -/
structure AudioMessage where
  userID : String
  mediaURL : String
  messageSid : String
  idempotencyKey : String
deriving DecidableEq, Repr

/-- `publisher.TextMessage`. -/
structure TextMessage where
  userID : String
  commandText : String
  messageSid : String
  idempotencyKey : String
deriving DecidableEq, Repr

/-- An envelope published to one of the two queues. -/
inductive Published where
  | audio (msg : AudioMessage)
  | text (msg : TextMessage)
deriving DecidableEq, Repr

/-- The form fields `HandleSMS` reads (`From`, `Body`, `MessageSid`,
`NumMedia`, `MediaUrl0`). -/
structure SMSForm where
  sender : String
  body : String
  messageSid : String
  numMedia : String
  mediaUrl0 : String
deriving DecidableEq, Repr

/-- `unicode.IsSpace`, the character class `strings.TrimSpace` strips. -/
def isSpaceChar (c : Char) : Bool :=
  let n := c.toNat
  (9 ≤ n && n ≤ 13) || n == 32 || n == 0x85 || n == 0xA0 || n == 0x1680 ||
  (0x2000 ≤ n && n ≤ 0x200A) || n == 0x2028 || n == 0x2029 ||
  n == 0x202F || n == 0x205F || n == 0x3000

/-- `strings.TrimSpace`. -/
def trimSpace (s : String) : String :=
  String.mk (((s.data.dropWhile isSpaceChar).reverse.dropWhile isSpaceChar).reverse)

/-- Whether the media branch of the classifier fires:
`numMedia != "" && numMedia != "0" && mediaURL != ""`. -/
def hasMedia (f : SMSForm) : Bool :=
  f.numMedia != "" && f.numMedia != "0" && f.mediaUrl0 != ""

/-- `HandleSMS` (after method check and form parse): field validation,
signature validation, then classification and publish. Returns the HTTP
status and the list of envelopes published. -/
def HandleSMS (authTokenSet sigValid publishOk : Bool) (f : SMSForm) :
    Nat × List Published :=
  if f.sender == "" || f.messageSid == "" then (400, [])
  else if authTokenSet && !sigValid then (403, [])
  else
    let idemKey := GenerateKey f.messageSid
    if hasMedia f then
      if publishOk then
        (200, [.audio ⟨f.sender, f.mediaUrl0, f.messageSid, idemKey⟩])
      else (500, [])
    else if f.body != "" then
      if publishOk then
        (200, [.text ⟨f.sender, trimSpace f.body, f.messageSid, idemKey⟩])
      else (500, [])
    else (400, [])

/-- Whether an envelope is text-class. -/
def Published.isText : Published → Bool
  | .text _ => true
  | .audio _ => false

end Ingress

/-! ## `services/command/internal/consumer/consumer.go`

The per-delivery body of `Consumer.Start`: `json.Unmarshal` is an external
call whose outcome is the `decoded : Option TextMessage` input, and the
handler is a function returning `ok` or an error. The result is the single
acknowledgement action taken plus the list of handler invocations made. -/

namespace Consumer

/-- `consumer.TextMessage` as decoded from the queue payload. -/
structure TextMessage where
  userID : String
  commandText : String
  messageSid : String
  idempotencyKey : String
deriving DecidableEq, Repr

/-- The acknowledgement actions: `Ack(false)`, `Nack(false, true)`
(reject with requeue), `Nack(false, false)` (reject without requeue). -/
inductive AckAction where
  | ack
  | nackRequeue
  | nackDrop
deriving DecidableEq, Repr

/-- One iteration of the consume loop for a delivered message. -/
def processDelivery (decoded : Option TextMessage)
    (handler : TextMessage → Except String Unit) :
    AckAction × List TextMessage :=
  match decoded with
  | none => (.nackDrop, [])
  | some msg =>
    match handler msg with
    | .error _ => (.nackRequeue, [msg])
    | .ok _ => (.ack, [msg])

end Consumer

/-! ## The command-service domain client — `FindTodoByTitle`

`FindTodoByTitle` lists the caller's active todos over gRPC and scans them
with a byte-wise, ASCII-only case-insensitive substring match
(`containsIgnoreCase` / `toLower` / `contains` in the client source). -/

namespace DomainClient

/-- ASCII lowercasing of one byte
(`if c >= 'A' && c <= 'Z' { c += 'a' - 'A' }`). -/
def lowerByte (c : Nat) : Nat :=
  if 65 ≤ c ∧ c ≤ 90 then c + 32 else c

/-- One rune's contribution to `toLower`'s output buffer. The source loop
`for i := range s` visits only rune-start byte indices, so the first byte
of the rune's UTF-8 encoding is ASCII-lowercased in place while the
continuation bytes of a multi-byte rune are never written and remain zero
in the `make`-initialized buffer. -/
def goLowerRune (c : Char) : List Nat :=
  match utf8Char c with
  | [] => []
  | b :: rest => lowerByte b :: rest.map fun _ => 0

/-- `toLower` from the client source, over the string's bytes: rune-start
bytes ASCII-lowercased, continuation bytes zeroed. -/
def toLowerBytes (s : String) : List Nat :=
  s.data.flatMap goLowerRune

/-- Modelled from the spec: the claim's words "case-insensitive substring
match" read as ASCII-lowercasing every byte of both strings (multi-byte
runes left intact). Stated only to compare the claim's predicate with the
code's. -/
def specLowerBytes (s : String) : List Nat :=
  (strBytes s).map lowerByte

/-- `contains`: `for i := 0; i <= len(s)-len(substr); i++` over bytes; a
longer needle than haystack makes the bound negative, so the loop never
runs. -/
def containsBytes (s sub : List Nat) : Bool :=
  if sub.length ≤ s.length then
    (List.range (s.length - sub.length + 1)).any
      fun i => (s.drop i).take sub.length == sub
  else false

/-- `containsIgnoreCase`. -/
def containsIgnoreCase (s sub : String) : Bool :=
  containsBytes (toLowerBytes s) (toLowerBytes sub)

/-- Modelled from the spec: case-insensitive substring match, the predicate
the spec sentence describes; compared against `containsIgnoreCase`. -/
def specContainsIgnoreCase (s sub : String) : Bool :=
  containsBytes (specLowerBytes s) (specLowerBytes sub)

/-- `FindTodoByTitle` applied to the list the `ListTodos` RPC returned:
first match in list order, `none` when nothing matches. -/
def findFirstMatch (todos : List ProtoTodo) (titleHint : String) :
    Option ProtoTodo :=
  todos.find? fun t => containsIgnoreCase t.title titleHint

/-- `FindTodoByTitle` end to end: `ListTodos` with the ACTIVE filter, then
the scan. -/
def FindTodoByTitle (db : DB) (userID titleHint : String) :
    Except Server.Code (Option ProtoTodo) :=
  match Server.ListTodos db userID .active with
  | .error e => .error e
  | .ok todos => .ok (findFirstMatch todos titleHint)

end DomainClient

/-! ## Helper lemmas -/

/-- The digest always has 32 bytes: the final serialization flattens eight
4-byte words. -/
theorem sha256_length (msg : List Nat) : (sha256 msg).length = 32 := rfl

/-- A row found by id together with nodup ids pins down every row with
that id. -/
theorem unique_row {db : DB} {id : Nat} {t : Todo}
    (hnd : (db.todos.map Todo.id).Nodup)
    (hf : db.todos.find? (fun x => x.id == id) = some t) :
    ∀ x ∈ db.todos, x.id = id → x = t := by
  intro x hx hxid
  have ht : t ∈ db.todos := List.mem_of_find?_eq_some hf
  have htid : t.id = id := by simpa using List.find?_some hf
  exact List.inj_on_of_nodup_map hnd hx ht (by rw [hxid, htid])

/-- If the unique row with the given id misses a hit predicate that forces
that id, the conditional UPDATE affects zero rows. -/
theorem rows_zero {db : DB} {id : Nat} {t : Todo} {p : Todo → Bool}
    (hnd : (db.todos.map Todo.id).Nodup)
    (hf : db.todos.find? (fun x => x.id == id) = some t)
    (hid : ∀ x, p x = true → x.id = id)
    (hpt : p t = false) :
    db.todos.filter p = [] := by
  rw [List.filter_eq_nil_iff]
  intro x hx hpx
  have hxt : x = t := unique_row hnd hf x hx (hid x hpx)
  rw [hxt, hpt] at hpx
  exact Bool.false_ne_true hpx

/-! ## Claim theorems -/

/-- C7: `GenerateKey` is a pure, deterministic function from strings to
strings: every call on the same external event id returns the same key,
equal to the fixed prefix `"idem_"` followed by the hex encoding of the
first 16 bytes of the SHA-256 digest of the input; checked against the
FIPS 180-4 test vector for `"abc"`. -/
theorem generateKey_deterministic_C7 :
    (∀ s t : String, s = t → GenerateKey s = GenerateKey t)
    ∧ (∀ s : String,
        GenerateKey s =
          "idem_" ++ hexEncodeToString ((sha256 (strBytes s)).take 16))
    ∧ (∀ s : String, (sha256 (strBytes s)).length = 32)
    ∧ GenerateKey "abc" = "idem_ba7816bf8f01cfea414140de5dae2223" := by
  refine ⟨fun s t h => by rw [h], fun s => rfl, fun s => rfl, ?_⟩
  set_option maxRecDepth 4000 in decide

/-- Witness for C7: the determinism conjunct applied at `"SM999"`. -/
theorem generateKey_deterministic_C7_witness :
    "SM999" = "SM999" ∧ GenerateKey "SM999" = GenerateKey "SM999" :=
  ⟨rfl, generateKey_deterministic_C7.1 "SM999" "SM999" rfl⟩

/-- C6: per delivered message exactly one acknowledgement action is taken:
an undecodable payload is rejected without requeue with zero handler
invocations; a decoded payload whose handler errors is rejected with
requeue after exactly one invocation; a handled payload is acknowledged
after exactly one invocation. -/
theorem consumer_ack_discipline_C6 :
    ∀ (handler : Consumer.TextMessage → Except String Unit)
      (m : Consumer.TextMessage),
    Consumer.processDelivery none handler = (.nackDrop, [])
    ∧ (∀ e, handler m = .error e →
        Consumer.processDelivery (some m) handler = (.nackRequeue, [m]))
    ∧ (handler m = .ok () →
        Consumer.processDelivery (some m) handler = (.ack, [m])) := by
  intro handler m
  refine ⟨rfl, ?_, ?_⟩
  · intro e he
    simp [Consumer.processDelivery, he]
  · intro hok
    simp [Consumer.processDelivery, hok]

/-- A message used by witnesses. -/
def msgW : Consumer.TextMessage :=
  { userID := "+15551234567", commandText := "buy milk",
    messageSid := "SM1", idempotencyKey := GenerateKey "SM1" }

/-- A handler that always fails. -/
def handlerFailW : Consumer.TextMessage → Except String Unit :=
  fun _ => .error "transient"

/-- A handler that always succeeds. -/
def handlerOkW : Consumer.TextMessage → Except String Unit :=
  fun _ => .ok ()

/-- Witness for C6: the three acknowledgement outcomes at concrete inputs. -/
theorem consumer_ack_discipline_C6_witness :
    Consumer.processDelivery none handlerOkW = (.nackDrop, [])
    ∧ handlerFailW msgW = .error "transient"
    ∧ Consumer.processDelivery (some msgW) handlerFailW = (.nackRequeue, [msgW])
    ∧ handlerOkW msgW = .ok ()
    ∧ Consumer.processDelivery (some msgW) handlerOkW = (.ack, [msgW]) :=
  ⟨(consumer_ack_discipline_C6 handlerOkW msgW).1, rfl,
   (consumer_ack_discipline_C6 handlerFailW msgW).2.1 "transient" rfl, rfl,
   (consumer_ack_discipline_C6 handlerOkW msgW).2.2 rfl⟩

/-- C2: a mutation (complete, delete, edit) whose target id refers to an
existing todo owned by a different user returns `ErrNotOwner`, never
`ErrNotFound`. -/
theorem ownership_denied_C2 :
    ∀ (db : DB) (id : Nat) (userID : String) (cAt now : Nat)
      (title descr : String) (t : Todo),
    (db.todos.map Todo.id).Nodup →
    db.todos.find? (fun x => x.id == id) = some t →
    t.userID ≠ userID →
    (Store.CompleteTodo db id userID cAt now).1 = .error .notOwner
    ∧ (Store.DeleteTodo db id userID now).1 = .error .notOwner
    ∧ (Store.EditTodo db id userID title descr now).1 = .error .notOwner := by
  intro db id userID cAt now title descr t hnd hf hne
  have hct : Store.completeHit id userID t = false := by
    simp [Store.completeHit, hne]
  have hdt : Store.deleteHit id userID t = false := by
    simp [Store.deleteHit, hne]
  have hcz : db.todos.filter (Store.completeHit id userID) = [] :=
    rows_zero hnd hf
      (fun x hx => by
        simp only [Store.completeHit, Bool.and_eq_true, beq_iff_eq] at hx
        exact hx.1.1) hct
  have hdz : db.todos.filter (Store.deleteHit id userID) = [] :=
    rows_zero hnd hf
      (fun x hx => by
        simp only [Store.deleteHit, Bool.and_eq_true, beq_iff_eq] at hx
        exact hx.1.1) hdt
  refine ⟨?_, ?_, ?_⟩ <;>
    simp [Store.CompleteTodo, Store.DeleteTodo, Store.EditTodo, hcz, hdz,
          Store.GetTodo, hf, hne]

/-- C3: completing an already-completed or already-deleted todo owned by the
caller is a no-op success returning the current row and leaving the state
unchanged; deleting an already-deleted todo owned by the caller likewise. -/
theorem complete_replay_noop_C3 :
    ∀ (db : DB) (id : Nat) (userID : String) (cAt now : Nat) (t : Todo),
    (db.todos.map Todo.id).Nodup →
    db.todos.find? (fun x => x.id == id) = some t →
    t.userID = userID →
    ((t.status = .completed ∨ t.status = .deleted) →
      Store.CompleteTodo db id userID cAt now = (.ok t, db))
    ∧ (t.status = .deleted →
      Store.DeleteTodo db id userID now = (.ok t, db)) := by
  intro db id userID cAt now t hnd hf hown
  constructor
  · intro hst
    have hct : Store.completeHit id userID t = false := by
      rcases hst with h | h <;> simp [Store.completeHit, h]
    have hcz : db.todos.filter (Store.completeHit id userID) = [] :=
      rows_zero hnd hf
        (fun x hx => by
          simp only [Store.completeHit, Bool.and_eq_true, beq_iff_eq] at hx
          exact hx.1.1) hct
    simp [Store.CompleteTodo, hcz, Store.GetTodo, hf, hown]
  · intro hst
    have hdt : Store.deleteHit id userID t = false := by
      simp [Store.deleteHit, hst]
    have hdz : db.todos.filter (Store.deleteHit id userID) = [] :=
      rows_zero hnd hf
        (fun x hx => by
          simp only [Store.deleteHit, Bool.and_eq_true, beq_iff_eq] at hx
          exact hx.1.1) hdt
    simp [Store.DeleteTodo, hdz, Store.GetTodo, hf, hown]

/-- C8: editing an already-deleted todo owned by the caller surfaces
`ErrNotFound` — edit has no zero-rows-is-success relaxation. -/
theorem edit_deleted_notfound_C8 :
    ∀ (db : DB) (id : Nat) (userID title descr : String) (now : Nat) (t : Todo),
    (db.todos.map Todo.id).Nodup →
    db.todos.find? (fun x => x.id == id) = some t →
    t.userID = userID →
    t.status = .deleted →
    Store.EditTodo db id userID title descr now = (.error .notFound, db) := by
  intro db id userID title descr now t hnd hf hown hst
  have hdt : Store.deleteHit id userID t = false := by
    simp [Store.deleteHit, hst]
  have hdz : db.todos.filter (Store.deleteHit id userID) = [] :=
    rows_zero hnd hf
      (fun x hx => by
        simp only [Store.deleteHit, Bool.and_eq_true, beq_iff_eq] at hx
        exact hx.1.1) hdt
  simp [Store.EditTodo, hdz, Store.GetTodo, hf, hown]

/-- Witness fixture: an active todo owned by alice. -/
def todoActiveW : Todo :=
  { id := 1, userID := "alice", title := "Buy milk", description := "",
    status := .active, createdAt := 10, updatedAt := 10,
    completedAt := none, deletedAt := none }

/-- Witness fixture: a completed todo owned by alice. -/
def todoDoneW : Todo :=
  { id := 2, userID := "alice", title := "Walk dog", description := "",
    status := .completed, createdAt := 20, updatedAt := 25,
    completedAt := some 25, deletedAt := none }

/-- Witness fixture: a deleted todo owned by alice. -/
def todoGoneW : Todo :=
  { id := 3, userID := "alice", title := "Old task", description := "",
    status := .deleted, createdAt := 5, updatedAt := 30,
    completedAt := none, deletedAt := some 30 }

/-- Witness fixture: a database with the three alice rows. -/
def dbW : DB :=
  { todos := [todoActiveW, todoDoneW, todoGoneW], nextID := 4, idem := [] }

/-- Witness for C2: bob mutating alice's todo #1 gets `ErrNotOwner` from all
three mutations. -/
theorem ownership_denied_C2_witness :
    (dbW.todos.map Todo.id).Nodup
    ∧ dbW.todos.find? (fun x => x.id == 1) = some todoActiveW
    ∧ todoActiveW.userID ≠ "bob"
    ∧ (Store.CompleteTodo dbW 1 "bob" 50 60).1 = .error .notOwner
    ∧ (Store.DeleteTodo dbW 1 "bob" 60).1 = .error .notOwner
    ∧ (Store.EditTodo dbW 1 "bob" "x" "y" 60).1 = .error .notOwner := by
  have h := ownership_denied_C2 dbW 1 "bob" 50 60 "x" "y" todoActiveW
    (by decide) (by decide) (by decide)
  exact ⟨by decide, by decide, by decide, h.1, h.2.1, h.2.2⟩

/-- Witness for C3: completing alice's completed todo #2 and deleting her
deleted todo #3 are no-op successes. -/
theorem complete_replay_noop_C3_witness :
    (dbW.todos.map Todo.id).Nodup
    ∧ dbW.todos.find? (fun x => x.id == 2) = some todoDoneW
    ∧ todoDoneW.userID = "alice" ∧ todoDoneW.status = .completed
    ∧ Store.CompleteTodo dbW 2 "alice" 50 60 = (.ok todoDoneW, dbW)
    ∧ dbW.todos.find? (fun x => x.id == 3) = some todoGoneW
    ∧ todoGoneW.status = .deleted
    ∧ Store.DeleteTodo dbW 3 "alice" 60 = (.ok todoGoneW, dbW) := by
  have h2 := complete_replay_noop_C3 dbW 2 "alice" 50 60 todoDoneW
    (by decide) (by decide) (by decide)
  have h3 := complete_replay_noop_C3 dbW 3 "alice" 50 60 todoGoneW
    (by decide) (by decide) (by decide)
  exact ⟨by decide, by decide, by decide, by decide,
         h2.1 (Or.inl (by decide)), by decide, by decide, h3.2 (by decide)⟩

/-- Witness for C8: editing alice's deleted todo #3 surfaces `ErrNotFound`. -/
theorem edit_deleted_notfound_C8_witness :
    (dbW.todos.map Todo.id).Nodup
    ∧ dbW.todos.find? (fun x => x.id == 3) = some todoGoneW
    ∧ todoGoneW.userID = "alice" ∧ todoGoneW.status = .deleted
    ∧ Store.EditTodo dbW 3 "alice" "new title" "new descr" 60 =
        (.error .notFound, dbW) := by
  exact ⟨by decide, by decide, by decide, by decide,
         edit_deleted_notfound_C8 dbW 3 "alice" "new title" "new descr" 60
           todoGoneW (by decide) (by decide) (by decide) (by decide)⟩

/-- Counterexample to C4 as stated: a whitespace-only body (`" "`) with no
media is NOT rejected — `HandleSMS` checks the untrimmed body against the
empty string, so it answers 200 and publishes one text envelope whose
command text trims to the empty string. -/
theorem whitespace_body_enqueued_C4_cex :
    (Ingress.HandleSMS false true true
        { sender := "+15551234567", body := " ", messageSid := "SM123",
          numMedia := "", mediaUrl0 := "" }).1 = 200
    ∧ (Ingress.HandleSMS false true true
        { sender := "+15551234567", body := " ", messageSid := "SM123",
          numMedia := "", mediaUrl0 := "" }).2 =
      [.text { userID := "+15551234567", commandText := "",
               messageSid := "SM123",
               idempotencyKey := "idem_8dcedf76e8949e11196ca55b5960960b" }] := by
  constructor
  · rfl
  · set_option maxRecDepth 4000 in decide

/-- C4 (amended): with no media, only a body equal to the empty string is
rejected synchronously (HTTP 400, nothing published); a non-empty body —
even whitespace-only — is published as exactly one text envelope carrying
the trimmed body. -/
theorem empty_body_rejected_C4 :
    ∀ (authTokenSet sigValid publishOk : Bool) (f : Ingress.SMSForm),
    f.sender ≠ "" → f.messageSid ≠ "" →
    (authTokenSet && !sigValid) = false →
    Ingress.hasMedia f = false →
    (f.body = "" →
      Ingress.HandleSMS authTokenSet sigValid publishOk f = (400, []))
    ∧ (f.body ≠ "" → publishOk = true →
      Ingress.HandleSMS authTokenSet sigValid publishOk f =
        (200, [.text { userID := f.sender,
                       commandText := Ingress.trimSpace f.body,
                       messageSid := f.messageSid,
                       idempotencyKey := GenerateKey f.messageSid }])) := by
  intro authTokenSet sigValid publishOk f hs hsid hauth hmedia
  constructor
  · intro hb
    simp [Ingress.HandleSMS, hs, hsid, hauth, hmedia, hb]
  · intro hb hpub
    simp [Ingress.HandleSMS, hs, hsid, hauth, hmedia, hb, hpub]

/-- Witness for C4 (amended): both branches at concrete forms. -/
theorem empty_body_rejected_C4_witness :
    Ingress.HandleSMS false true true
        { sender := "+15551234567", body := "", messageSid := "SM123",
          numMedia := "", mediaUrl0 := "" } = (400, [])
    ∧ Ingress.HandleSMS false true true
        { sender := "+15551234567", body := "  buy milk  ", messageSid := "SM123",
          numMedia := "", mediaUrl0 := "" } =
      (200, [.text { userID := "+15551234567", commandText := "buy milk",
                     messageSid := "SM123",
                     idempotencyKey := GenerateKey "SM123" }]) := by
  constructor
  · exact (empty_body_rejected_C4 false true true
      { sender := "+15551234567", body := "", messageSid := "SM123",
        numMedia := "", mediaUrl0 := "" }
      (by decide) (by decide) rfl rfl).1 rfl
  · have h := (empty_body_rejected_C4 false true true
      { sender := "+15551234567", body := "  buy milk  ", messageSid := "SM123",
        numMedia := "", mediaUrl0 := "" }
      (by decide) (by decide) rfl rfl).2 (by decide) rfl
    simpa using h

/-- C5: an event carrying media (truthy `NumMedia`, non-empty `MediaUrl0`)
together with a non-empty body publishes exactly one audio envelope and
zero text envelopes — the body is discarded. -/
theorem media_precedence_C5 :
    ∀ (authTokenSet sigValid : Bool) (f : Ingress.SMSForm),
    f.sender ≠ "" → f.messageSid ≠ "" →
    (authTokenSet && !sigValid) = false →
    Ingress.hasMedia f = true → f.body ≠ "" →
    Ingress.HandleSMS authTokenSet sigValid true f =
      (200, [.audio { userID := f.sender, mediaURL := f.mediaUrl0,
                      messageSid := f.messageSid,
                      idempotencyKey := GenerateKey f.messageSid }])
    ∧ ((Ingress.HandleSMS authTokenSet sigValid true f).2.countP
        (fun p => p.isText)) = 0
    ∧ (Ingress.HandleSMS authTokenSet sigValid true f).2.length = 1 := by
  intro authTokenSet sigValid f hs hsid hauth hmedia hb
  have h : Ingress.HandleSMS authTokenSet sigValid true f =
      (200, [.audio { userID := f.sender, mediaURL := f.mediaUrl0,
                      messageSid := f.messageSid,
                      idempotencyKey := GenerateKey f.messageSid }]) := by
    simp [Ingress.HandleSMS, hs, hsid, hauth, hmedia]
  refine ⟨h, ?_, ?_⟩ <;> rw [h] <;> rfl

/-- Witness for C5: a concrete MMS with both media and body yields one
audio envelope and no text envelope. -/
theorem media_precedence_C5_witness :
    Ingress.HandleSMS false true true
        { sender := "+15559876543", body := "also some text",
          messageSid := "SMmedia1", numMedia := "1",
          mediaUrl0 := "https://api.twilio.com/media/ME123" } =
      (200, [.audio { userID := "+15559876543",
                      mediaURL := "https://api.twilio.com/media/ME123",
                      messageSid := "SMmedia1",
                      idempotencyKey := GenerateKey "SMmedia1" }]) := by
  exact (media_precedence_C5 false true
    { sender := "+15559876543", body := "also some text",
      messageSid := "SMmedia1", numMedia := "1",
      mediaUrl0 := "https://api.twilio.com/media/ME123" }
    (by decide) (by decide) rfl (by decide) (by decide)).1

/-- Insertion preserves membership. -/
theorem mem_insertByCreatedDesc {t a : Todo} {l : List Todo} :
    a ∈ Store.insertByCreatedDesc t l ↔ a = t ∨ a ∈ l := by
  induction l with
  | nil => simp [Store.insertByCreatedDesc]
  | cons x xs ih =>
    rw [Store.insertByCreatedDesc]
    split
    · rw [List.mem_cons, ih, List.mem_cons]
      tauto
    · rw [List.mem_cons, List.mem_cons]

/-- The `ORDER BY created_at DESC` sort preserves membership. -/
theorem mem_sortByCreatedDesc {a : Todo} {l : List Todo} :
    a ∈ Store.sortByCreatedDesc l ↔ a ∈ l := by
  induction l with
  | nil => simp [Store.sortByCreatedDesc]
  | cons x xs ih =>
    simp [Store.sortByCreatedDesc, mem_insertByCreatedDesc, ih]

/-- `contains` really is byte-level substring occurrence. -/
theorem containsBytes_iff_occurs (s sub : List Nat) :
    DomainClient.containsBytes s sub = true ↔
      ∃ pre post, s = pre ++ sub ++ post := by
  unfold DomainClient.containsBytes
  split
  · next hle =>
    simp only [List.any_eq_true, List.mem_range, beq_iff_eq]
    constructor
    · rintro ⟨i, _, hieq⟩
      refine ⟨s.take i, s.drop (i + sub.length), ?_⟩
      calc s = s.take i ++ s.drop i := (List.take_append_drop i s).symm
        _ = s.take i ++ ((s.drop i).take sub.length ++ (s.drop i).drop sub.length) := by
            rw [List.take_append_drop sub.length (s.drop i)]
        _ = s.take i ++ (sub ++ s.drop (i + sub.length)) := by
            rw [hieq, List.drop_drop]
        _ = s.take i ++ sub ++ s.drop (i + sub.length) := by
            rw [List.append_assoc]
    · rintro ⟨pre, post, rfl⟩
      refine ⟨pre.length, ?_, ?_⟩
      · have h1 : (pre ++ sub ++ post).length =
            pre.length + (sub.length + post.length) := by simp
        rw [h1]
        omega
      · rw [List.append_assoc, List.drop_left, List.take_left]
  · next hle =>
    refine ⟨fun h => absurd h (by simp), fun hex => ?_⟩
    obtain ⟨pre, post, rfl⟩ := hex
    exact absurd (by rw [List.length_append, List.length_append]; omega) hle

/-- An ASCII code point encodes to its single byte. -/
theorem utf8Char_ascii {c : Char} (h : c.toNat < 128) :
    utf8Char c = [c.toNat] := by
  rw [utf8Char]
  simp [h]

/-- On an ASCII rune, the rune-start-only lowering degenerates to plain
byte lowering. -/
theorem goLowerRune_ascii {c : Char} (h : c.toNat < 128) :
    DomainClient.goLowerRune c = [DomainClient.lowerByte c.toNat] := by
  rw [DomainClient.goLowerRune, utf8Char_ascii h]
  rfl

/-- On all-ASCII character lists, the code's lowering agrees with lowering
every byte. -/
theorem flatMap_goLowerRune_ascii :
    ∀ (l : List Char), (∀ c ∈ l, c.toNat < 128) →
    l.flatMap DomainClient.goLowerRune =
      (l.flatMap utf8Char).map DomainClient.lowerByte
  | [], _ => rfl
  | c :: cs, h => by
    rw [List.flatMap_cons, List.flatMap_cons, List.map_append,
        goLowerRune_ascii (h c (List.mem_cons_self c cs)),
        utf8Char_ascii (h c (List.mem_cons_self c cs)),
        flatMap_goLowerRune_ascii cs (fun x hx => h x (List.mem_cons_of_mem c hx))]
    rfl

/-- On all-ASCII strings, `toLower` agrees with the spec's reading. -/
theorem toLowerBytes_ascii (s : String) (h : ∀ c ∈ s.data, c.toNat < 128) :
    DomainClient.toLowerBytes s = DomainClient.specLowerBytes s := by
  rw [DomainClient.toLowerBytes, DomainClient.specLowerBytes, strBytes,
      flatMap_goLowerRune_ascii s.data h]

/-- Counterexample to C9 as stated: the code's `toLower` zeroes the
continuation bytes of multi-byte runes, so distinct non-ASCII characters
sharing a UTF-8 lead byte are conflated. With one active todo titled
`"è"`, the fallback resolves hint `"é"` to it, although `"é"` is not a
case-insensitive substring of `"è"` (no ASCII-lowered byte occurrence, and
the two are distinct letters, not case variants). -/
theorem accent_conflation_C9_cex :
    DomainClient.FindTodoByTitle
        { todos := [{ id := 7, userID := "alice", title := "è",
                      description := "", status := .active, createdAt := 40,
                      updatedAt := 40, completedAt := none, deletedAt := none }],
          nextID := 8, idem := [] } "alice" "é" =
      .ok (some { id := 7, userId := "alice", title := "è", description := "",
                  createdAt := 40, status := .active, completedAt := none })
    ∧ DomainClient.specContainsIgnoreCase "è" "é" = false
    ∧ ¬ ∃ pre post, DomainClient.specLowerBytes "è" =
        pre ++ DomainClient.specLowerBytes "é" ++ post := by
  refine ⟨by decide, by decide, fun hex => ?_⟩
  have h := (containsBytes_iff_occurs (DomainClient.specLowerBytes "è")
    (DomainClient.specLowerBytes "é")).mpr hex
  revert h
  decide

/-- C9 (amended): identifier fallback. Over the list of the caller's active
todos as returned by the store, `FindTodoByTitle` returns the first todo in
store-returned order whose title matches the hint under the code's
predicate — both strings lowered by `toLower`, which ASCII-lowercases
rune-start bytes and zeroes the continuation bytes of multi-byte runes,
then byte-substring occurrence — and `none` when no title matches; only the
caller's own active items are considered; on all-ASCII titles and hints the
predicate coincides with case-insensitive substring match. -/
theorem find_by_title_C9 :
    (∀ (db : DB) (userID hint : String), userID ≠ "" →
      ∃ l, Server.ListTodos db userID .active = .ok l
        ∧ DomainClient.FindTodoByTitle db userID hint =
            .ok (DomainClient.findFirstMatch l hint)
        ∧ (∀ t ∈ l, t.userId = userID ∧ t.status = .active)
        ∧ (DomainClient.findFirstMatch l hint = none ↔
            ∀ t ∈ l, DomainClient.containsIgnoreCase t.title hint = false)
        ∧ (∀ t, DomainClient.findFirstMatch l hint = some t ↔
            DomainClient.containsIgnoreCase t.title hint = true
            ∧ ∃ pre post, l = pre ++ t :: post
              ∧ ∀ u ∈ pre, DomainClient.containsIgnoreCase u.title hint = false))
    ∧ (∀ s sub : String, DomainClient.containsIgnoreCase s sub = true ↔
        ∃ pre post, DomainClient.toLowerBytes s =
          pre ++ DomainClient.toLowerBytes sub ++ post)
    ∧ (∀ s sub : String,
        (∀ c ∈ s.data, c.toNat < 128) → (∀ c ∈ sub.data, c.toNat < 128) →
        DomainClient.containsIgnoreCase s sub =
          DomainClient.specContainsIgnoreCase s sub) := by
  constructor
  · intro db userID hint hu
    have hub : (userID == "") = false := by simpa using hu
    have hlist : Server.ListTodos db userID .active =
        .ok ((Store.ListTodos db userID "active").map storeToProto) := by
      simp [Server.ListTodos, hub, Server.statusFilter]
    refine ⟨(Store.ListTodos db userID "active").map storeToProto,
      hlist, ?_, ?_, ?_, ?_⟩
    · rw [DomainClient.FindTodoByTitle, hlist]
    · intro t ht
      obtain ⟨t0, ht0, rfl⟩ := List.mem_map.mp ht
      rw [show Store.ListTodos db userID "active" =
            Store.sortByCreatedDesc (db.todos.filter
              (fun t => t.userID == userID && t.status.toStr == "active"))
          from rfl] at ht0
      have hmem := mem_sortByCreatedDesc.mp ht0
      have hpred := (List.mem_filter.mp hmem).2
      simp only [Bool.and_eq_true, beq_iff_eq] at hpred
      obtain ⟨howner, hstat⟩ := hpred
      have hactive : t0.status = .active := by
        cases h : t0.status <;> rw [h] at hstat <;> revert hstat <;> decide
      constructor
      · simpa [storeToProto] using howner
      · simp [storeToProto, hactive]
    · rw [DomainClient.findFirstMatch, List.find?_eq_none]
      simp only [Bool.not_eq_true]
    · intro t
      rw [DomainClient.findFirstMatch, List.find?_eq_some]
      simp only [Bool.not_eq_true']
  constructor
  · intro s sub
    exact containsBytes_iff_occurs _ _
  · intro s sub hs hsub
    rw [DomainClient.containsIgnoreCase, DomainClient.specContainsIgnoreCase,
        toLowerBytes_ascii s hs, toLowerBytes_ascii sub hsub]

/-- Witness for C9: the characterization applied at the concrete fixture
database, caller alice and hint "milk". -/
theorem find_by_title_C9_witness :
    "alice" ≠ "" ∧
    ∃ l, Server.ListTodos dbW "alice" .active = .ok l
      ∧ DomainClient.FindTodoByTitle dbW "alice" "milk" =
          .ok (DomainClient.findFirstMatch l "milk")
      ∧ (∀ t ∈ l, t.userId = "alice" ∧ t.status = .active)
      ∧ (DomainClient.findFirstMatch l "milk" = none ↔
          ∀ t ∈ l, DomainClient.containsIgnoreCase t.title "milk" = false)
      ∧ (∀ t, DomainClient.findFirstMatch l "milk" = some t ↔
          DomainClient.containsIgnoreCase t.title "milk" = true
          ∧ ∃ pre post, l = pre ++ t :: post
            ∧ ∀ u ∈ pre,
                DomainClient.containsIgnoreCase u.title "milk" = false) :=
  ⟨by decide, find_by_title_C9.1 dbW "alice" "milk" (by decide)⟩

/-- After an insert-if-absent of a previously absent key, the lookup
returns exactly the stored response. -/
theorem check_after_store_same (db : DB) (key : String) (resp : ProtoTodo)
    (now : Nat) (h : Store.CheckIdempotencyKey db key = none) :
    Store.CheckIdempotencyKey (Store.StoreIdempotencyKey db key resp now) key =
      some resp := by
  have hfind : db.idem.find? (fun r => r.key == key) = none := by
    cases hf : db.idem.find? (fun r => r.key == key) with
    | none => rfl
    | some r =>
      rw [Store.CheckIdempotencyKey, hf] at h
      simp at h
  have hany : db.idem.any (fun r => r.key == key) = false := by
    rw [List.any_eq_false]
    intro r hr
    simpa using List.find?_eq_none.mp hfind r hr
  rw [Store.StoreIdempotencyKey, hany]
  simp only [Bool.false_eq_true, if_false]
  rw [Store.CheckIdempotencyKey]
  simp only [List.find?_append, hfind, Option.none_or]
  rw [List.find?_cons_of_pos _ (by simp)]
  rfl

/-- The store mutations never touch the idempotency table: create. -/
theorem createTodo_idem_eq (db : DB) (u ti d : String) (now : Nat) :
    (Store.CreateTodo db u ti d now).2.idem = db.idem := rfl

/-- The store mutations never touch the idempotency table: complete. -/
theorem completeTodo_idem_eq (db : DB) (id : Nat) (u : String) (c now : Nat) :
    (Store.CompleteTodo db id u c now).2.idem = db.idem := by
  rw [Store.CompleteTodo]
  split
  · split
    · rfl
    · split <;> rfl
  · rfl

/-- The store mutations never touch the idempotency table: delete. -/
theorem deleteTodo_idem_eq (db : DB) (id : Nat) (u : String) (now : Nat) :
    (Store.DeleteTodo db id u now).2.idem = db.idem := by
  rw [Store.DeleteTodo]
  split
  · split
    · rfl
    · split <;> rfl
  · rfl

/-- The store mutations never touch the idempotency table: edit. -/
theorem editTodo_idem_eq (db : DB) (id : Nat) (u ti d : String) (now : Nat) :
    (Store.EditTodo db id u ti d now).2.idem = db.idem := by
  rw [Store.EditTodo]
  split
  · split
    · rfl
    · split <;> rfl
  · rfl

/-- The cache lookup depends only on the idempotency table. -/
theorem cachedResp_congr {db db' : DB} (h : db.idem = db'.idem) (key : String) :
    Server.cachedResp db key = Server.cachedResp db' key := by
  rw [Server.cachedResp, Server.cachedResp,
      Store.CheckIdempotencyKey, Store.CheckIdempotencyKey, h]

/-- Recording a fresh key on the success path makes the next lookup hit. -/
theorem recordKey_cache (db : DB) (key : String) (resp : ProtoTodo) (now : Nat)
    (hk : key ≠ "") (hnone : Server.cachedResp db key = none) :
    Server.cachedResp (Server.recordKey true db key resp now) key = some resp := by
  have hkb : (key == "") = false := by simpa using hk
  rw [Server.cachedResp, hkb] at hnone
  simp only [Bool.false_eq_true, if_false] at hnone
  rw [Server.recordKey, hkb]
  simp only [Bool.false_eq_true, if_false, if_true]
  rw [Server.cachedResp, hkb]
  simp only [Bool.false_eq_true, if_false]
  exact check_after_store_same db key resp now hnone

/-- Cache hit short-circuits `CreateTodo`: the cached response is returned,
the state is untouched and the store mutation is not invoked. -/
theorem serverCreate_cacheHit (kw : Bool) (db : DB) (req : Server.CreateReq)
    (now : Nat) (c : ProtoTodo)
    (hu : req.userId ≠ "") (ht : req.title ≠ "")
    (hc : Server.cachedResp db req.idempotencyKey = some c) :
    Server.CreateTodo kw db req now = ⟨.ok c, db, 0⟩ := by
  have hub : (req.userId == "") = false := by simpa using hu
  have htb : (req.title == "") = false := by simpa using ht
  simp [Server.CreateTodo, hub, htb, hc]

/-- Cache hit short-circuits `CompleteTodo`. -/
theorem serverComplete_cacheHit (kw : Bool) (db : DB)
    (req : Server.CompleteReq) (now : Nat) (c : ProtoTodo)
    (hid : req.todoId ≠ 0) (hu : req.userId ≠ "")
    (hc : Server.cachedResp db req.idempotencyKey = some c) :
    Server.CompleteTodo kw db req now = ⟨.ok c, db, 0⟩ := by
  have hidb : (req.todoId == 0) = false := by simpa using hid
  have hub : (req.userId == "") = false := by simpa using hu
  simp [Server.CompleteTodo, hidb, hub, hc]

/-- Cache hit short-circuits `DeleteTodo`. -/
theorem serverDelete_cacheHit (kw : Bool) (db : DB) (req : Server.DeleteReq)
    (now : Nat) (c : ProtoTodo)
    (hid : req.todoId ≠ 0) (hu : req.userId ≠ "")
    (hc : Server.cachedResp db req.idempotencyKey = some c) :
    Server.DeleteTodo kw db req now = ⟨.ok c, db, 0⟩ := by
  have hidb : (req.todoId == 0) = false := by simpa using hid
  have hub : (req.userId == "") = false := by simpa using hu
  simp [Server.DeleteTodo, hidb, hub, hc]

/-- Cache hit short-circuits `EditTodo`. -/
theorem serverEdit_cacheHit (kw : Bool) (db : DB) (req : Server.EditReq)
    (now : Nat) (c : ProtoTodo)
    (hid : req.todoId ≠ 0) (hu : req.userId ≠ "")
    (hc : Server.cachedResp db req.idempotencyKey = some c) :
    Server.EditTodo kw db req now = ⟨.ok c, db, 0⟩ := by
  have hidb : (req.todoId == 0) = false := by simpa using hid
  have hub : (req.userId == "") = false := by simpa using hu
  simp [Server.EditTodo, hidb, hub, hc]

/-- Dispatching the same create envelope twice: identical response, at most
one store mutation. -/
theorem serverCreate_replay (db : DB) (req : Server.CreateReq)
    (now now' : Nat) (v : ProtoTodo)
    (hu : req.userId ≠ "") (ht : req.title ≠ "") (hk : req.idempotencyKey ≠ "")
    (hresp : (Server.CreateTodo true db req now).resp = .ok v) :
    Server.CreateTodo true (Server.CreateTodo true db req now).db req now' =
      ⟨.ok v, (Server.CreateTodo true db req now).db, 0⟩
    ∧ (Server.CreateTodo true db req now).mutations +
      (Server.CreateTodo true (Server.CreateTodo true db req now).db req now').mutations ≤ 1 := by
  have hub : (req.userId == "") = false := by simpa using hu
  have htb : (req.title == "") = false := by simpa using ht
  cases hc : Server.cachedResp db req.idempotencyKey with
  | some c =>
    have e1 : Server.CreateTodo true db req now = ⟨.ok c, db, 0⟩ :=
      serverCreate_cacheHit true db req now c hu ht hc
    rw [e1] at hresp
    have hcv : c = v := by simpa using hresp
    subst hcv
    have e2 : Server.CreateTodo true db req now' = ⟨.ok c, db, 0⟩ :=
      serverCreate_cacheHit true db req now' c hu ht hc
    rw [e1]
    exact ⟨e2, by simp [e2]⟩
  | none =>
    have e1 : Server.CreateTodo true db req now =
        ⟨.ok (storeToProto (Store.CreateTodo db req.userId req.title
            req.description now).1),
         Server.recordKey true
           (Store.CreateTodo db req.userId req.title req.description now).2
           req.idempotencyKey
           (storeToProto (Store.CreateTodo db req.userId req.title
              req.description now).1) now, 1⟩ := by
      simp [Server.CreateTodo, hub, htb, hc, Store.CreateTodo]
    rw [e1] at hresp
    obtain rfl :
        storeToProto (Store.CreateTodo db req.userId req.title
          req.description now).1 = v := by simpa using hresp
    have hnone1 : Server.cachedResp
        (Store.CreateTodo db req.userId req.title req.description now).2
        req.idempotencyKey = none := by
      rw [cachedResp_congr
        (createTodo_idem_eq db req.userId req.title req.description now)]
      exact hc
    have hcache2 := recordKey_cache
      (Store.CreateTodo db req.userId req.title req.description now).2
      req.idempotencyKey
      (storeToProto (Store.CreateTodo db req.userId req.title
        req.description now).1) now hk hnone1
    have e2 := serverCreate_cacheHit true _ req now' _ hu ht hcache2
    rw [e1]
    exact ⟨e2, by simp [e2]⟩

/-- Dispatching the same complete envelope twice after a successful first
dispatch: identical response, at most one store mutation. -/
theorem serverComplete_replay (db : DB) (req : Server.CompleteReq)
    (now now' : Nat) (v : ProtoTodo)
    (hid : req.todoId ≠ 0) (hu : req.userId ≠ "") (hk : req.idempotencyKey ≠ "")
    (hresp : (Server.CompleteTodo true db req now).resp = .ok v) :
    Server.CompleteTodo true (Server.CompleteTodo true db req now).db req now' =
      ⟨.ok v, (Server.CompleteTodo true db req now).db, 0⟩
    ∧ (Server.CompleteTodo true db req now).mutations +
      (Server.CompleteTodo true (Server.CompleteTodo true db req now).db req now').mutations ≤ 1 := by
  have hidb : (req.todoId == 0) = false := by simpa using hid
  have hub : (req.userId == "") = false := by simpa using hu
  cases hc : Server.cachedResp db req.idempotencyKey with
  | some c =>
    have e1 : Server.CompleteTodo true db req now = ⟨.ok c, db, 0⟩ :=
      serverComplete_cacheHit true db req now c hid hu hc
    rw [e1] at hresp
    have hcv : c = v := by simpa using hresp
    subst hcv
    have e2 : Server.CompleteTodo true db req now' = ⟨.ok c, db, 0⟩ :=
      serverComplete_cacheHit true db req now' c hid hu hc
    rw [e1]
    exact ⟨e2, by simp [e2]⟩
  | none =>
    rcases hst : Store.CompleteTodo db req.todoId req.userId
        (req.completedAt.getD now) now with ⟨res, db1⟩
    cases res with
    | error e =>
      exfalso
      cases e <;>
        · rw [show (Server.CompleteTodo true db req now).resp =
              (Server.CompleteTodo true db req now).resp from rfl] at hresp
          simp [Server.CompleteTodo, hidb, hub, hc, hst] at hresp
    | ok todo =>
      have e1 : Server.CompleteTodo true db req now =
          ⟨.ok (storeToProto todo),
           Server.recordKey true db1 req.idempotencyKey (storeToProto todo) now,
           1⟩ := by
        simp [Server.CompleteTodo, hidb, hub, hc, hst]
      rw [e1] at hresp
      have hv : storeToProto todo = v := by simpa using hresp
      subst hv
      have hdb1 : db1.idem = db.idem := by
        have h := completeTodo_idem_eq db req.todoId req.userId
          (req.completedAt.getD now) now
        rw [hst] at h
        exact h
      have hnone1 : Server.cachedResp db1 req.idempotencyKey = none := by
        rw [cachedResp_congr hdb1]
        exact hc
      have hcache2 := recordKey_cache db1 req.idempotencyKey (storeToProto todo) now hk hnone1
      have e2 := serverComplete_cacheHit true _ req now' _ hid hu hcache2
      rw [e1]
      exact ⟨e2, by simp [e2]⟩

/-- Dispatching the same delete envelope twice after a successful first
dispatch: identical response, at most one store mutation. -/
theorem serverDelete_replay (db : DB) (req : Server.DeleteReq)
    (now now' : Nat) (v : ProtoTodo)
    (hid : req.todoId ≠ 0) (hu : req.userId ≠ "") (hk : req.idempotencyKey ≠ "")
    (hresp : (Server.DeleteTodo true db req now).resp = .ok v) :
    Server.DeleteTodo true (Server.DeleteTodo true db req now).db req now' =
      ⟨.ok v, (Server.DeleteTodo true db req now).db, 0⟩
    ∧ (Server.DeleteTodo true db req now).mutations +
      (Server.DeleteTodo true (Server.DeleteTodo true db req now).db req now').mutations ≤ 1 := by
  have hidb : (req.todoId == 0) = false := by simpa using hid
  have hub : (req.userId == "") = false := by simpa using hu
  cases hc : Server.cachedResp db req.idempotencyKey with
  | some c =>
    have e1 : Server.DeleteTodo true db req now = ⟨.ok c, db, 0⟩ :=
      serverDelete_cacheHit true db req now c hid hu hc
    rw [e1] at hresp
    have hcv : c = v := by simpa using hresp
    subst hcv
    have e2 : Server.DeleteTodo true db req now' = ⟨.ok c, db, 0⟩ :=
      serverDelete_cacheHit true db req now' c hid hu hc
    rw [e1]
    exact ⟨e2, by simp [e2]⟩
  | none =>
    rcases hst : Store.DeleteTodo db req.todoId req.userId now with ⟨res, db1⟩
    cases res with
    | error e =>
      exfalso
      cases e <;>
        simp [Server.DeleteTodo, hidb, hub, hc, hst] at hresp
    | ok todo =>
      have e1 : Server.DeleteTodo true db req now =
          ⟨.ok (storeToProto todo),
           Server.recordKey true db1 req.idempotencyKey (storeToProto todo) now,
           1⟩ := by
        simp [Server.DeleteTodo, hidb, hub, hc, hst]
      rw [e1] at hresp
      have hv : storeToProto todo = v := by simpa using hresp
      subst hv
      have hdb1 : db1.idem = db.idem := by
        have h := deleteTodo_idem_eq db req.todoId req.userId now
        rw [hst] at h
        exact h
      have hnone1 : Server.cachedResp db1 req.idempotencyKey = none := by
        rw [cachedResp_congr hdb1]
        exact hc
      have hcache2 := recordKey_cache db1 req.idempotencyKey (storeToProto todo) now hk hnone1
      have e2 := serverDelete_cacheHit true _ req now' _ hid hu hcache2
      rw [e1]
      exact ⟨e2, by simp [e2]⟩

/-- Dispatching the same edit envelope twice after a successful first
dispatch: identical response, at most one store mutation. -/
theorem serverEdit_replay (db : DB) (req : Server.EditReq)
    (now now' : Nat) (v : ProtoTodo)
    (hid : req.todoId ≠ 0) (hu : req.userId ≠ "") (hk : req.idempotencyKey ≠ "")
    (hresp : (Server.EditTodo true db req now).resp = .ok v) :
    Server.EditTodo true (Server.EditTodo true db req now).db req now' =
      ⟨.ok v, (Server.EditTodo true db req now).db, 0⟩
    ∧ (Server.EditTodo true db req now).mutations +
      (Server.EditTodo true (Server.EditTodo true db req now).db req now').mutations ≤ 1 := by
  have hidb : (req.todoId == 0) = false := by simpa using hid
  have hub : (req.userId == "") = false := by simpa using hu
  cases hc : Server.cachedResp db req.idempotencyKey with
  | some c =>
    have e1 : Server.EditTodo true db req now = ⟨.ok c, db, 0⟩ :=
      serverEdit_cacheHit true db req now c hid hu hc
    rw [e1] at hresp
    have hcv : c = v := by simpa using hresp
    subst hcv
    have e2 : Server.EditTodo true db req now' = ⟨.ok c, db, 0⟩ :=
      serverEdit_cacheHit true db req now' c hid hu hc
    rw [e1]
    exact ⟨e2, by simp [e2]⟩
  | none =>
    rcases hst : Store.EditTodo db req.todoId req.userId req.title
        req.description now with ⟨res, db1⟩
    cases res with
    | error e =>
      exfalso
      cases e <;>
        simp [Server.EditTodo, hidb, hub, hc, hst] at hresp
    | ok todo =>
      have e1 : Server.EditTodo true db req now =
          ⟨.ok (storeToProto todo),
           Server.recordKey true db1 req.idempotencyKey (storeToProto todo) now,
           1⟩ := by
        simp [Server.EditTodo, hidb, hub, hc, hst]
      rw [e1] at hresp
      have hv : storeToProto todo = v := by simpa using hresp
      subst hv
      have hdb1 : db1.idem = db.idem := by
        have h := editTodo_idem_eq db req.todoId req.userId req.title
          req.description now
        rw [hst] at h
        exact h
      have hnone1 : Server.cachedResp db1 req.idempotencyKey = none := by
        rw [cachedResp_congr hdb1]
        exact hc
      have hcache2 := recordKey_cache db1 req.idempotencyKey (storeToProto todo) now hk hnone1
      have e2 := serverEdit_cacheHit true _ req now' _ hid hu hcache2
      rw [e1]
      exact ⟨e2, by simp [e2]⟩

/-- C1: for every domain operation, a request whose idempotency key is
already recorded returns the cached response verbatim, leaves the state
unchanged and does not invoke the store mutation; and dispatching the same
envelope twice (successful first dispatch, key-record write not crashed)
yields identical responses and at most one store mutation in total. -/
theorem idempotent_execute_C1 :
    (∀ (kw : Bool) (db : DB) (req : Server.CreateReq) (now : Nat)
       (c : ProtoTodo),
      req.userId ≠ "" → req.title ≠ "" →
      Server.cachedResp db req.idempotencyKey = some c →
      Server.CreateTodo kw db req now = ⟨.ok c, db, 0⟩)
    ∧ (∀ (kw : Bool) (db : DB) (req : Server.CompleteReq) (now : Nat)
         (c : ProtoTodo),
        req.todoId ≠ 0 → req.userId ≠ "" →
        Server.cachedResp db req.idempotencyKey = some c →
        Server.CompleteTodo kw db req now = ⟨.ok c, db, 0⟩)
    ∧ (∀ (kw : Bool) (db : DB) (req : Server.DeleteReq) (now : Nat)
         (c : ProtoTodo),
        req.todoId ≠ 0 → req.userId ≠ "" →
        Server.cachedResp db req.idempotencyKey = some c →
        Server.DeleteTodo kw db req now = ⟨.ok c, db, 0⟩)
    ∧ (∀ (kw : Bool) (db : DB) (req : Server.EditReq) (now : Nat)
         (c : ProtoTodo),
        req.todoId ≠ 0 → req.userId ≠ "" →
        Server.cachedResp db req.idempotencyKey = some c →
        Server.EditTodo kw db req now = ⟨.ok c, db, 0⟩)
    ∧ (∀ (db : DB) (req : Server.CreateReq) (now now' : Nat) (v : ProtoTodo),
        req.userId ≠ "" → req.title ≠ "" → req.idempotencyKey ≠ "" →
        (Server.CreateTodo true db req now).resp = .ok v →
        Server.CreateTodo true (Server.CreateTodo true db req now).db req now' =
          ⟨.ok v, (Server.CreateTodo true db req now).db, 0⟩
        ∧ (Server.CreateTodo true db req now).mutations +
          (Server.CreateTodo true (Server.CreateTodo true db req now).db
            req now').mutations ≤ 1)
    ∧ (∀ (db : DB) (req : Server.CompleteReq) (now now' : Nat) (v : ProtoTodo),
        req.todoId ≠ 0 → req.userId ≠ "" → req.idempotencyKey ≠ "" →
        (Server.CompleteTodo true db req now).resp = .ok v →
        Server.CompleteTodo true (Server.CompleteTodo true db req now).db
          req now' = ⟨.ok v, (Server.CompleteTodo true db req now).db, 0⟩
        ∧ (Server.CompleteTodo true db req now).mutations +
          (Server.CompleteTodo true (Server.CompleteTodo true db req now).db
            req now').mutations ≤ 1)
    ∧ (∀ (db : DB) (req : Server.DeleteReq) (now now' : Nat) (v : ProtoTodo),
        req.todoId ≠ 0 → req.userId ≠ "" → req.idempotencyKey ≠ "" →
        (Server.DeleteTodo true db req now).resp = .ok v →
        Server.DeleteTodo true (Server.DeleteTodo true db req now).db req now' =
          ⟨.ok v, (Server.DeleteTodo true db req now).db, 0⟩
        ∧ (Server.DeleteTodo true db req now).mutations +
          (Server.DeleteTodo true (Server.DeleteTodo true db req now).db
            req now').mutations ≤ 1)
    ∧ (∀ (db : DB) (req : Server.EditReq) (now now' : Nat) (v : ProtoTodo),
        req.todoId ≠ 0 → req.userId ≠ "" → req.idempotencyKey ≠ "" →
        (Server.EditTodo true db req now).resp = .ok v →
        Server.EditTodo true (Server.EditTodo true db req now).db req now' =
          ⟨.ok v, (Server.EditTodo true db req now).db, 0⟩
        ∧ (Server.EditTodo true db req now).mutations +
          (Server.EditTodo true (Server.EditTodo true db req now).db
            req now').mutations ≤ 1) :=
  ⟨serverCreate_cacheHit, serverComplete_cacheHit, serverDelete_cacheHit,
   serverEdit_cacheHit, serverCreate_replay, serverComplete_replay,
   serverDelete_replay, serverEdit_replay⟩

/-- Witness fixture for C1: a cached response row. -/
def protoCachedW : ProtoTodo :=
  { id := 9, userId := "alice", title := "Cached", description := "",
    createdAt := 1, status := .active, completedAt := none }

/-- Witness fixture for C1: the database with a preloaded idempotency
record. -/
def dbCachedW : DB :=
  { todos := [todoActiveW, todoDoneW, todoGoneW], nextID := 4,
    idem := [⟨"idem_cached", protoCachedW, 7⟩] }

/-- Witness fixture for C1: a create request hitting the cached key. -/
def reqCreateW : Server.CreateReq :=
  { userId := "alice", title := "Buy milk", description := "",
    idempotencyKey := "idem_cached" }

/-- Witness fixture for C1: a complete request with a fresh key. -/
def reqCompleteW : Server.CompleteReq :=
  { todoId := 1, userId := "alice", completedAt := some 50,
    idempotencyKey := "k1" }

/-- Witness fixture for C1: the response of completing todo #1. -/
def protoDoneW : ProtoTodo :=
  { id := 1, userId := "alice", title := "Buy milk", description := "",
    createdAt := 10, status := .completed, completedAt := some 50 }

/-- Witness for C1: a cache hit replays the stored response without
mutating, and a concrete double dispatch of the same complete envelope
returns identical responses with one mutation in total. -/
theorem idempotent_execute_C1_witness :
    reqCreateW.userId ≠ "" ∧ reqCreateW.title ≠ ""
    ∧ Server.cachedResp dbCachedW reqCreateW.idempotencyKey = some protoCachedW
    ∧ Server.CreateTodo true dbCachedW reqCreateW 33 = ⟨.ok protoCachedW, dbCachedW, 0⟩
    ∧ reqCompleteW.todoId ≠ 0 ∧ reqCompleteW.idempotencyKey ≠ ""
    ∧ (Server.CompleteTodo true dbW reqCompleteW 60).resp = .ok protoDoneW
    ∧ Server.CompleteTodo true (Server.CompleteTodo true dbW reqCompleteW 60).db
        reqCompleteW 99 =
      ⟨.ok protoDoneW, (Server.CompleteTodo true dbW reqCompleteW 60).db, 0⟩
    ∧ (Server.CompleteTodo true dbW reqCompleteW 60).mutations +
      (Server.CompleteTodo true (Server.CompleteTodo true dbW reqCompleteW 60).db
        reqCompleteW 99).mutations ≤ 1 := by
  have h1 := idempotent_execute_C1.1 true dbCachedW reqCreateW 33 protoCachedW
    (by decide) (by decide) (by decide)
  have h2 := idempotent_execute_C1.2.2.2.2.2.1 dbW reqCompleteW 60 99 protoDoneW
    (by decide) (by decide) (by decide) (by decide)
  exact ⟨by decide, by decide, by decide, h1, by decide, by decide, by decide,
         h2.1, h2.2⟩

/-- C10 (implicit): when the idempotency-record write fails, the create
operation still returns the successful response (the error is swallowed),
no record is stored, and a later request with the same key re-executes the
mutation. -/
theorem keywrite_swallowed_C10 :
    ∀ (db : DB) (req : Server.CreateReq) (now now' : Nat),
    req.userId ≠ "" → req.title ≠ "" → req.idempotencyKey ≠ "" →
    Server.cachedResp db req.idempotencyKey = none →
    (Server.CreateTodo false db req now).resp =
      .ok (storeToProto (Store.CreateTodo db req.userId req.title
        req.description now).1)
    ∧ (Server.CreateTodo false db req now).mutations = 1
    ∧ (Server.CreateTodo false db req now).db.idem = db.idem
    ∧ (Server.CreateTodo false (Server.CreateTodo false db req now).db
        req now').mutations = 1 := by
  intro db req now now' hu ht hk hc
  have hub : (req.userId == "") = false := by simpa using hu
  have htb : (req.title == "") = false := by simpa using ht
  have hrk : ∀ dbx : DB,
      Server.recordKey false dbx req.idempotencyKey
        (storeToProto (Store.CreateTodo db req.userId req.title
          req.description now).1) now = dbx := by
    intro dbx
    rw [Server.recordKey]
    split <;> rfl
  have e1 : Server.CreateTodo false db req now =
      ⟨.ok (storeToProto (Store.CreateTodo db req.userId req.title
          req.description now).1),
       (Store.CreateTodo db req.userId req.title req.description now).2, 1⟩ := by
    simp [Server.CreateTodo, hub, htb, hc, hrk]
  have hidem : (Store.CreateTodo db req.userId req.title
      req.description now).2.idem = db.idem :=
    createTodo_idem_eq db req.userId req.title req.description now
  have hnone1 : Server.cachedResp
      (Store.CreateTodo db req.userId req.title req.description now).2
      req.idempotencyKey = none := by
    rw [cachedResp_congr hidem]
    exact hc
  refine ⟨by rw [e1], by rw [e1], by rw [e1]; exact hidem, ?_⟩
  rw [e1]
  simp [Server.CreateTodo, hub, htb, hnone1]

/-- Witness fixture for C10: a create request with a fresh key, run with a
failing key-record write. -/
def reqKeyFailW : Server.CreateReq :=
  { userId := "alice", title := "New item", description := "",
    idempotencyKey := "idem_fresh" }

/-- Witness for C10: the concrete failed-key-write run still succeeds,
stores nothing, and the retry mutates again. -/
theorem keywrite_swallowed_C10_witness :
    reqKeyFailW.userId ≠ "" ∧ reqKeyFailW.title ≠ ""
    ∧ reqKeyFailW.idempotencyKey ≠ ""
    ∧ Server.cachedResp dbW reqKeyFailW.idempotencyKey = none
    ∧ (Server.CreateTodo false dbW reqKeyFailW 70).resp =
        .ok (storeToProto (Store.CreateTodo dbW reqKeyFailW.userId
          reqKeyFailW.title reqKeyFailW.description 70).1)
    ∧ (Server.CreateTodo false dbW reqKeyFailW 70).mutations = 1
    ∧ (Server.CreateTodo false dbW reqKeyFailW 70).db.idem = dbW.idem
    ∧ (Server.CreateTodo false (Server.CreateTodo false dbW reqKeyFailW 70).db
        reqKeyFailW 95).mutations = 1 := by
  have h := keywrite_swallowed_C10 dbW reqKeyFailW 70 95
    (by decide) (by decide) (by decide) (by decide)
  exact ⟨by decide, by decide, by decide, by decide,
         h.1, h.2.1, h.2.2.1, h.2.2.2⟩

end HoundTodo
